import Mathlib

/-! # I2C bus scanner (`weather_station/scan.cpp`)

A shallow embedding of `readReg8`, `printHex8` and `scanOnce`.

The sketch talks to two Arduino objects that are not part of the repository:

* `Wire`, the I2C transport.  It is a parameter of the development: a
  `Transport σ` is an arbitrary state machine over a state type `σ`, so the
  answers of the bus may depend on everything that happened before.
* `Serial`, the text sink.  It is write-only, so the calls made on it are
  recorded in order; `Serial.render` gives the text they produce.

The state threaded through the program is a `World`: the transport state, the
list of transport calls made so far, the list of `readReg8` invocations and
the list of `Serial` calls.
-/

namespace WeatherStation

/-! ## The environment -/

/-- The `Wire` object: `beginTransmission(addr)`, `write(byte)`,
`endTransmission(sendStop)` returning a status, `requestFrom(addr, quantity)`
returning the number of bytes received and `read()` returning an `int`. -/
structure Transport (σ : Type) where
  beginTransmission : σ → Nat → σ
  write : σ → Nat → σ
  endTransmission : σ → Bool → σ × Nat
  requestFrom : σ → Nat → Nat → σ × Nat
  read : σ → σ × Int

/-- A call made on `Wire`, with its arguments. -/
inductive BusCall
  | beginTransmission (addr : Nat)
  | write (byte : Nat)
  | endTransmission (sendStop : Bool)
  | requestFrom (addr quantity : Nat)
  | read
  deriving DecidableEq, Repr

/-- A call made on `Serial`, with its arguments. -/
inductive SerialCall
  /-- The call `Serial.print(const char*)`. -/
  | print (s : String)
  /-- The call `Serial.print(uint8_t, base)`. -/
  | printNum (v base : Nat)
  /-- The call `Serial.println(const char*)`. -/
  | println (s : String)
  /-- The call `Serial.println()`. -/
  | newline
  deriving DecidableEq, Repr

/-- The state the sketch runs in. -/
structure World (σ : Type) where
  /-- state of the transport -/
  bus : σ
  /-- calls made on `Wire`, oldest first -/
  calls : List BusCall
  /-- invocations of `readReg8` as `(addr, reg)`, oldest first -/
  regReads : List (Nat × Nat)
  /-- calls made on `Serial`, oldest first -/
  serial : List SerialCall

/-- A world in which nothing has happened yet. -/
def World.init {σ : Type} (s : σ) : World σ :=
  { bus := s, calls := [], regReads := [], serial := [] }

namespace Wire

variable {σ : Type}

/-- The call `Wire.beginTransmission(addr)`. -/
def beginTransmission (t : Transport σ) (addr : Nat) (w : World σ) : World σ :=
  { w with bus := t.beginTransmission w.bus addr
           calls := w.calls ++ [BusCall.beginTransmission addr] }

/-- The call `Wire.write(byte)`; the sketch ignores the returned count. -/
def write (t : Transport σ) (byte : Nat) (w : World σ) : World σ :=
  { w with bus := t.write w.bus byte
           calls := w.calls ++ [BusCall.write byte] }

/-- The call `Wire.endTransmission(sendStop)`; the status it returns is a
`uint8_t`. -/
def endTransmission (t : Transport σ) (sendStop : Bool) (w : World σ) : World σ × Nat :=
  ({ w with bus := (t.endTransmission w.bus sendStop).1
            calls := w.calls ++ [BusCall.endTransmission sendStop] },
   (t.endTransmission w.bus sendStop).2 % 256)

/-- The call `Wire.requestFrom(addr, quantity)`; the count it returns is
compared as it comes. -/
def requestFrom (t : Transport σ) (addr quantity : Nat) (w : World σ) : World σ × Nat :=
  ({ w with bus := (t.requestFrom w.bus addr quantity).1
            calls := w.calls ++ [BusCall.requestFrom addr quantity] },
   (t.requestFrom w.bus addr quantity).2)

/-- The call `Wire.read()`, which returns an `int`. -/
def read (t : Transport σ) (w : World σ) : World σ × Int :=
  ({ w with bus := (t.read w.bus).1
            calls := w.calls ++ [BusCall.read] },
   (t.read w.bus).2)

end Wire

namespace Serial

variable {σ : Type}

/-- The statement `Serial.print(s)`. -/
def print (s : String) (w : World σ) : World σ :=
  { w with serial := w.serial ++ [SerialCall.print s] }

/-- The statement `Serial.print(v, base)` for a `uint8_t` value. -/
def printNum (v base : Nat) (w : World σ) : World σ :=
  { w with serial := w.serial ++ [SerialCall.printNum v base] }

/-- The statement `Serial.println(s)`. -/
def println (s : String) (w : World σ) : World σ :=
  { w with serial := w.serial ++ [SerialCall.println s] }

/-- The statement `Serial.println()`. -/
def newline (w : World σ) : World σ :=
  { w with serial := w.serial ++ [SerialCall.newline] }

/-- Digit of `Print::printNumber`: `c < 10 ? c + '0' : c + 'A' - 10`. -/
def digit (c : Nat) : Char :=
  if c < 10 then Char.ofNat (c + 48) else Char.ofNat (c + 65 - 10)

/-- The digits `Print::printNumber` puts in front of `acc`: its
`do { c = n % base; n /= base; *--str = digit c } while (n)`. -/
def digits (base : Nat) : Nat → Nat → List Char → List Char
  | 0, _, acc => acc
  | fuel + 1, n, acc =>
    if n / base = 0 then digit (n % base) :: acc
    else digits base fuel (n / base) (digit (n % base) :: acc)

/-- Text of `Print::print(uint8_t v, int base)`; a base below 2 prints in
base 10. -/
def number (v base : Nat) : String :=
  String.mk (digits (if base < 2 then 10 else base) 32 v [])

/-- Text one call puts on the line; `println` ends the line with CR LF. -/
def renderCall : SerialCall → String
  | .print s => s
  | .printNum v base => number v base
  | .println s => s ++ "\r\n"
  | .newline => "\r\n"

/-- Text a sequence of calls puts on the line. -/
def render (cs : List SerialCall) : String :=
  cs.foldl (fun acc c => acc ++ renderCall c) ""

end Serial

/-! ## The sketch -/

section Sketch

variable {σ : Type}

/-- The function `static uint8_t readReg8(uint8_t addr, uint8_t reg)`
(`scan.cpp`, lines 7-13).  Its first line records the invocation; the value
returned by `Wire.read()` is converted to `uint8_t`. -/
def readReg8 (t : Transport σ) (addr reg : Nat) (w : World σ) : World σ × Nat :=
  let w0 := { w with regReads := w.regReads ++ [(addr, reg)] }
  let w1 := Wire.beginTransmission t addr w0
  let w2 := Wire.write t reg w1
  let e := Wire.endTransmission t false w2
  if e.2 ≠ 0 then (e.1, 0xFF)
  else
    let r := Wire.requestFrom t addr 1 e.1
    if r.2 ≠ 1 then (r.1, 0xFF)
    else
      let b := Wire.read t r.1
      (b.1, (b.2 % 256).toNat)

/-- The function `static void printHex8(uint8_t v)` (`scan.cpp`, lines 15-18). -/
def printHex8 (v : Nat) (w : World σ) : World σ :=
  let w1 := if v < 16 then Serial.print "0" w else w
  Serial.printNum v 16 w1

/-- The loop `for (uint8_t i = start; i < bound; i++) body`, run for at most `fuel`
evaluations of the loop condition; `none` when the fuel runs out first. -/
def forU8 {α : Type} (bound : Nat) (body : Nat → α → α) : Nat → Nat → α → Option α
  | 0, _, _ => none
  | fuel + 1, i, st =>
    if i < bound then forU8 bound body fuel ((i + 1) % 256) (body i st)
    else some st

/-- The locals of `scanOnce` that Phase 1 fills. -/
structure Locals where
  /-- The array `uint8_t foundAddrs[32]`. -/
  foundAddrs : List Nat
  /-- The counter `uint8_t foundCount`. -/
  foundCount : Nat
  /-- indices of `foundAddrs` written so far, oldest first -/
  stores : List Nat
  deriving DecidableEq, Repr

/-- The locals on entry.  The array is not initialised by the sketch; it is
filled with zeros here, and no element is read before it is written. -/
def Locals.init : Locals :=
  { foundAddrs := List.replicate 32 0, foundCount := 0, stores := [] }

/-- The statement `foundAddrs[foundCount++] = addr;`. -/
def Locals.push (l : Locals) (addr : Nat) : Locals :=
  { foundAddrs := l.foundAddrs.set l.foundCount addr
    foundCount := (l.foundCount + 1) % 256
    stores := l.stores ++ [l.foundCount] }

/-- Body of the Phase 1 loop of `scanOnce`. -/
def sweepBody (t : Transport σ) (addr : Nat) (st : World σ × Locals) : World σ × Locals :=
  let w1 := Wire.beginTransmission t addr st.1
  let e := Wire.endTransmission t true w1
  let err := e.2 % 256
  if err = 0 then
    if st.2.foundCount < 32 then (e.1, st.2.push addr)
    else (e.1, st.2)
  else (e.1, st.2)

/-- Fuel given to each loop: a `uint8_t` counter has 256 values. -/
def loopFuel : Nat := 256

/-- Phase 1 of `scanOnce`: `for (uint8_t addr = 1; addr < 127; addr++)`. -/
def sweep (t : Transport σ) (w : World σ) : Option (World σ × Locals) :=
  forU8 127 (sweepBody t) loopFuel 1 (w, Locals.init)

/-- Body of the loop of `scanOnce` that prints the address list. -/
def listBody (l : Locals) (i : Nat) (w : World σ) : World σ :=
  let w1 := Serial.print "0x" w
  let w2 := printHex8 (l.foundAddrs.getD i 0) w1
  if i + 1 < l.foundCount then Serial.print ", " w2 else w2

/-- Body of the Phase 2 loop of `scanOnce`. -/
def probeBody (t : Transport σ) (l : Locals) (i : Nat) (w : World σ) : World σ :=
  let addr := l.foundAddrs.getD i 0
  let w1 := Serial.print "Device 0x" w
  let w2 := printHex8 addr w1
  let w3 := Serial.println " ID probe:" w2
  let idD0 := readReg8 t addr 0xD0 w3
  let id00 := readReg8 t addr 0x00 idD0.1
  let id0F := readReg8 t addr 0x0F id00.1
  let w4 := Serial.newline (printHex8 idD0.2 (Serial.print "  reg 0xD0 = 0x" id0F.1))
  let w5 := Serial.newline (printHex8 id00.2 (Serial.print "  reg 0x00 = 0x" w4))
  Serial.newline (printHex8 id0F.2 (Serial.print "  reg 0x0F = 0x" w5))

/-- The function `static void scanOnce(bool probeIds = true)` (`scan.cpp`,
lines 20-73); `none` only if a loop runs out of fuel. -/
def scanOnce (t : Transport σ) (probeIds : Bool) (w : World σ) : Option (World σ) :=
  match sweep t w with
  | none => none
  | some (w1, l) =>
    let w2 := Serial.print "I2C addresses found (" w1
    let w3 := Serial.printNum l.foundCount 10 w2
    let w4 := Serial.print "): " w3
    if l.foundCount = 0 then
      some (Serial.newline (Serial.println "none" w4))
    else
      match forU8 l.foundCount (listBody l) loopFuel 0 w4 with
      | none => none
      | some w5 =>
        let w6 := Serial.newline w5
        if probeIds then
          match forU8 l.foundCount (probeBody t l) loopFuel 0 w6 with
          | none => none
          | some w7 => some (Serial.newline w7)
        else some (Serial.newline w6)

end Sketch

/-! ## A simulated transport -/

/-- What a simulated bus answers: the status of an address-only write, the
status of a register-select write, the byte count of a one-byte request and
the byte read, each from the address (and register) alone. -/
structure Responses where
  probe : Nat → Nat
  select : Nat → Nat → Nat
  count : Nat → Nat → Nat
  value : Nat → Nat → Int

/-- State of the simulated bus: the address and bytes of the transmission
being assembled, and the address and register last selected. -/
structure SimState where
  txAddr : Nat
  txData : List Nat
  selAddr : Nat
  selReg : Nat
  deriving DecidableEq, Repr

/-- The idle simulated bus. -/
def SimState.idle : SimState :=
  { txAddr := 0, txData := [], selAddr := 0, selReg := 0 }

/-- The simulated transport answering by `r`. -/
def simTransport (r : Responses) : Transport SimState where
  beginTransmission s addr := { s with txAddr := addr, txData := [] }
  write s byte := { s with txData := s.txData ++ [byte] }
  endTransmission s _ :=
    match s.txData with
    | [] => (s, r.probe s.txAddr)
    | reg :: _ => ({ s with selAddr := s.txAddr, selReg := reg }, r.select s.txAddr reg)
  requestFrom s addr _ := ({ s with selAddr := addr }, r.count addr s.selReg)
  read s := (s, r.value s.selAddr s.selReg)

/-- Status 2 is the `Wire` code for "address not acknowledged". -/
def nack : Nat := 2

/-- A bus on which only 0x23 and 0x76 acknowledge and every register read
fails at the register-select write. -/
def busTwo : Responses :=
  { probe := fun a => if a = 0x23 ∨ a = 0x76 then 0 else nack
    select := fun _ _ => nack
    count := fun _ _ => 0
    value := fun _ _ => -1 }


/-! ## What the bus answers

The functions of this section follow the transport alone: they say what the
bus answers to a transaction issued in a given state, and in which state it
is left. -/

section Bus

variable {σ : Type}

/-- The address-only write to `a` issued in state `s`: the state it leaves
and its status (a `uint8_t`). -/
def probeTx (t : Transport σ) (s : σ) (a : Nat) : σ × Nat :=
  ((t.endTransmission (t.beginTransmission s a) true).1,
   (t.endTransmission (t.beginTransmission s a) true).2 % 256)

/-- State of the bus once the addresses `1, ..., n` have been probed in this
order, starting in `s`. -/
def busAfterSweep (t : Transport σ) (s : σ) : Nat → σ
  | 0 => s
  | n + 1 => (probeTx t (busAfterSweep t s n) (n + 1)).1

/-- Status the probe of address `a` gets during a sweep started in `s`. -/
def probeStatus (t : Transport σ) (s : σ) (a : Nat) : Nat :=
  (probeTx t (busAfterSweep t s (a - 1)) a).2

/-- The addresses among `1, ..., n` whose probe gets status 0, ascending. -/
def acksUpTo (t : Transport σ) (s : σ) (n : Nat) : List Nat :=
  (List.range' 1 n).filter (fun a => probeStatus t s a = 0)

/-- The acknowledging addresses of `[1, 126]`, ascending, cut after 32. -/
def presence (t : Transport σ) (s : σ) : List Nat :=
  (acksUpTo t s 126).take 32

/-- The `Wire` calls of a sweep of the addresses `1, ..., n`. -/
def sweepCalls (n : Nat) : List BusCall :=
  (List.range' 1 n).flatMap
    (fun a => [BusCall.beginTransmission a, BusCall.endTransmission true])

/-- The addresses of the `beginTransmission` calls among `calls`, in order. -/
def beginAddrs (calls : List BusCall) : List Nat :=
  calls.filterMap (fun c =>
    match c with
    | BusCall.beginTransmission a => some a
    | _ => none)

/-- The register-select write of `readReg8`: `beginTransmission(a)`,
`write(r)`, `endTransmission(false)`, issued in state `s`. -/
def selectTx (t : Transport σ) (s : σ) (a r : Nat) : σ × Nat :=
  ((t.endTransmission (t.write (t.beginTransmission s a) r) false).1,
   (t.endTransmission (t.write (t.beginTransmission s a) r) false).2 % 256)

/-- The one-byte request that follows the register-select write. -/
def requestTx (t : Transport σ) (s : σ) (a r : Nat) : σ × Nat :=
  t.requestFrom (selectTx t s a r).1 a 1

/-- The `read()` that follows the one-byte request. -/
def fetchTx (t : Transport σ) (s : σ) (a r : Nat) : σ × Int :=
  t.read (requestTx t s a r).1

/-- The register read of `(a, r)` issued in state `s` fails: the select write
gets a non-zero status, or the request returns a count other than 1. -/
def readFails (t : Transport σ) (s : σ) (a r : Nat) : Prop :=
  (selectTx t s a r).2 ≠ 0 ∨ (requestTx t s a r).2 ≠ 1

instance (t : Transport σ) (s : σ) (a r : Nat) : Decidable (readFails t s a r) :=
  inferInstanceAs (Decidable ((selectTx t s a r).2 ≠ 0 ∨ (requestTx t s a r).2 ≠ 1))

/-- The byte the transport delivers, as the `uint8_t` the `int` converts to. -/
def deliveredByte (t : Transport σ) (s : σ) (a r : Nat) : Nat :=
  ((fetchTx t s a r).2 % 256).toNat

/-- Value of a register read issued in state `s`: 0xFF when it fails, the
delivered byte otherwise. -/
def readValue (t : Transport σ) (s : σ) (a r : Nat) : Nat :=
  if readFails t s a r then 0xFF else deliveredByte t s a r

/-- State of the bus after a register read issued in state `s`. -/
def readBus (t : Transport σ) (s : σ) (a r : Nat) : σ :=
  if (selectTx t s a r).2 ≠ 0 then (selectTx t s a r).1
  else if (requestTx t s a r).2 ≠ 1 then (requestTx t s a r).1
  else (fetchTx t s a r).1

/-- The `Wire` calls of a register read issued in state `s`. -/
def readCalls (t : Transport σ) (s : σ) (a r : Nat) : List BusCall :=
  [BusCall.beginTransmission a, BusCall.write r, BusCall.endTransmission false] ++
    (if (selectTx t s a r).2 ≠ 0 then []
     else BusCall.requestFrom a 1 ::
       (if (requestTx t s a r).2 ≠ 1 then [] else [BusCall.read]))

/-- State of the bus after the three register reads of the device `a`. -/
def deviceBus (t : Transport σ) (s : σ) (a : Nat) : σ :=
  readBus t (readBus t (readBus t s a 0xD0) a 0x00) a 0x0F

/-- The `Wire` calls of the three register reads of the device `a`. -/
def deviceBusCalls (t : Transport σ) (s : σ) (a : Nat) : List BusCall :=
  readCalls t s a 0xD0 ++ readCalls t (readBus t s a 0xD0) a 0x00 ++
    readCalls t (readBus t (readBus t s a 0xD0) a 0x00) a 0x0F

/-- The `(register, value)` pairs of the device `a`, each value being that of
its own read, issued in the state the previous reads left. -/
def deviceValues (t : Transport σ) (s : σ) (a : Nat) : List (Nat × Nat) :=
  [(0xD0, readValue t s a 0xD0),
   (0x00, readValue t (readBus t s a 0xD0) a 0x00),
   (0x0F, readValue t (readBus t (readBus t s a 0xD0) a 0x00) a 0x0F)]

/-- The identification report of the addresses `found`, probed in this order
from state `s`: per address its `(register, value)` pairs. -/
def idReport (t : Transport σ) (s : σ) : List Nat → List (Nat × List (Nat × Nat))
  | [] => []
  | a :: rest => (a, deviceValues t s a) :: idReport t (deviceBus t s a) rest

/-- State of the bus after the identification of the addresses `found`. -/
def idBus (t : Transport σ) (s : σ) : List Nat → σ
  | [] => s
  | a :: rest => idBus t (deviceBus t s a) rest

/-- The `Wire` calls of the identification of the addresses `found`. -/
def idBusCalls (t : Transport σ) (s : σ) : List Nat → List BusCall
  | [] => []
  | a :: rest => deviceBusCalls t s a ++ idBusCalls t (deviceBus t s a) rest

/-- The register reads of Phase 2 for the addresses `found`. -/
def regSeq (found : List Nat) : List (Nat × Nat) :=
  found.flatMap (fun a => [(a, 0xD0), (a, 0x00), (a, 0x0F)])

/-- The `Serial` calls of `printHex8 v`. -/
def hexCalls (v : Nat) : List SerialCall :=
  (if v < 16 then [SerialCall.print "0"] else []) ++ [SerialCall.printNum v 16]

/-- The `Serial` calls that open the address-list report. -/
def headerCalls (count : Nat) : List SerialCall :=
  [SerialCall.print "I2C addresses found (", SerialCall.printNum count 10,
   SerialCall.print "): "]

/-- The `Serial` calls listing the addresses `found`, separated by commas. -/
def listCalls (found : List Nat) : List SerialCall :=
  (List.range found.length).flatMap (fun i =>
    SerialCall.print "0x" :: hexCalls (found.getD i 0) ++
      (if i + 1 < found.length then [SerialCall.print ", "] else []))

/-- The address-list report of `found`: one line with the count and the
addresses, or `none` when there are no addresses. -/
def addressReport (found : List Nat) : List SerialCall :=
  headerCalls found.length ++
    (if found = [] then [SerialCall.println "none"]
     else listCalls found ++ [SerialCall.newline])

/-- The text in front of the value of register `reg`. -/
def regLabel (reg : Nat) : String :=
  if reg = 0xD0 then "  reg 0xD0 = 0x"
  else if reg = 0x00 then "  reg 0x00 = 0x"
  else "  reg 0x0F = 0x"

/-- The `Serial` calls reporting one device: its address, then a line per
`(register, value)` pair. -/
def reportCalls (entry : Nat × List (Nat × Nat)) : List SerialCall :=
  SerialCall.print "Device 0x" :: hexCalls entry.1 ++
    SerialCall.println " ID probe:" ::
      entry.2.flatMap (fun rv =>
        SerialCall.print (regLabel rv.1) :: hexCalls rv.2 ++ [SerialCall.newline])

/-- Whether Phase 2 runs: the flag is set and an address was found. -/
def phase2Runs (t : Transport σ) (probeIds : Bool) (s : σ) : Bool :=
  probeIds && !(presence t s).isEmpty

/-- State of the bus after a cycle started in state `s`. -/
def scanBus (t : Transport σ) (probeIds : Bool) (s : σ) : σ :=
  if phase2Runs t probeIds s then idBus t (busAfterSweep t s 126) (presence t s)
  else busAfterSweep t s 126

/-- The `Wire` calls of a cycle started in state `s`. -/
def scanCalls (t : Transport σ) (probeIds : Bool) (s : σ) : List BusCall :=
  sweepCalls 126 ++
    (if phase2Runs t probeIds s then idBusCalls t (busAfterSweep t s 126) (presence t s)
     else [])

/-- The `readReg8` invocations of a cycle started in state `s`. -/
def scanReads (t : Transport σ) (probeIds : Bool) (s : σ) : List (Nat × Nat) :=
  if phase2Runs t probeIds s then regSeq (presence t s) else []

/-- The `Serial` calls of a cycle started in state `s`. -/
def scanSerial (t : Transport σ) (probeIds : Bool) (s : σ) : List SerialCall :=
  addressReport (presence t s) ++
    (if phase2Runs t probeIds s then
       (idReport t (busAfterSweep t s 126) (presence t s)).flatMap reportCalls
     else []) ++ [SerialCall.newline]

/-- The body of the Phase 2 loop as a function of the address it reads from
the buffer. -/
def deviceStep (t : Transport σ) (addr : Nat) (w : World σ) : World σ :=
  let w1 := Serial.print "Device 0x" w
  let w2 := printHex8 addr w1
  let w3 := Serial.println " ID probe:" w2
  let idD0 := readReg8 t addr 0xD0 w3
  let id00 := readReg8 t addr 0x00 idD0.1
  let id0F := readReg8 t addr 0x0F id00.1
  let w4 := Serial.newline (printHex8 idD0.2 (Serial.print "  reg 0xD0 = 0x" id0F.1))
  let w5 := Serial.newline (printHex8 id00.2 (Serial.print "  reg 0x00 = 0x" w4))
  Serial.newline (printHex8 id0F.2 (Serial.print "  reg 0x0F = 0x" w5))

/-- What Phase 1 has established once the addresses `1, ..., n` are done,
starting from the world `w0`. -/
structure SweepInv (t : Transport σ) (w0 : World σ) (n : Nat)
    (st : World σ × Locals) : Prop where
  bus : st.1.bus = busAfterSweep t w0.bus n
  calls : st.1.calls = w0.calls ++ sweepCalls n
  regReads : st.1.regReads = w0.regReads
  serial : st.1.serial = w0.serial
  size : st.2.foundAddrs.length = 32
  count : st.2.foundCount = min 32 (acksUpTo t w0.bus n).length
  found : st.2.foundAddrs.take st.2.foundCount = (acksUpTo t w0.bus n).take 32
  stores : st.2.stores = List.range st.2.foundCount

end Bus

/-! ## Transports whose answers do not change -/

section Steady

variable {σ : Type}

/-- On the states satisfying `Inv` the answer of the transport to a
transaction depends only on the address and register of that transaction:
probes and register reads keep `Inv`, and two states satisfying `Inv` give
the same probe status, the same select status, the same byte count once the
select is acknowledged and the same byte once the count is 1. -/
structure Steady (t : Transport σ) (Inv : σ → Prop) : Prop where
  probe_keeps : ∀ s a, Inv s → Inv (probeTx t s a).1
  read_keeps : ∀ s a r, Inv s → Inv (readBus t s a r)
  probe_same : ∀ s s' a, Inv s → Inv s' → (probeTx t s a).2 = (probeTx t s' a).2
  select_same : ∀ s s' a r, Inv s → Inv s' → (selectTx t s a r).2 = (selectTx t s' a r).2
  count_same : ∀ s s' a r, Inv s → Inv s' → (selectTx t s a r).2 = 0 →
    (requestTx t s a r).2 = (requestTx t s' a r).2
  byte_same : ∀ s s' a r, Inv s → Inv s' → (selectTx t s a r).2 = 0 →
    (requestTx t s a r).2 = 1 → (fetchTx t s a r).2 = (fetchTx t s' a r).2

end Steady

/-! ## Sample buses -/

/-- A bus on which no address acknowledges. -/
def busNone : Responses :=
  { probe := fun _ => nack
    select := fun _ _ => nack
    count := fun _ _ => 0
    value := fun _ _ => -1 }

/-- A bus on which every address acknowledges and every register reads 0. -/
def busAll : Responses :=
  { probe := fun _ => 0
    select := fun _ _ => 0
    count := fun _ _ => 1
    value := fun _ _ => 0 }

/-- A bus on which only 0x23 acknowledges its probe, and every register read
fails: the select write is not acknowledged. -/
def busOne : Responses :=
  { probe := fun a => if a = 0x23 then 0 else nack
    select := fun _ _ => nack
    count := fun _ _ => 0
    value := fun _ _ => -1 }

/-- A bus on which only 0x23 acknowledges, and every register read succeeds
and delivers the byte 0xFF. -/
def busFF : Responses :=
  { probe := fun a => if a = 0x23 then 0 else nack
    select := fun _ _ => 0
    count := fun _ _ => 1
    value := fun _ _ => 0xFF }

/-- A bus on which only 0x23 and 0x76 acknowledge their probe.  The device
0x23 never acknowledges a register select.  The device 0x76 does; the
request for its register 0xD0 returns no byte, its register 0x00 reads 0x60
and its register 0x0F reads 0xA5. -/
def busMixed : Responses :=
  { probe := fun a => if a = 0x23 ∨ a = 0x76 then 0 else nack
    select := fun a _ => if a = 0x23 then nack else 0
    count := fun _ r => if r = 0xD0 then 0 else 1
    value := fun _ r => if r = 0x00 then 0x60 else 0xA5 }

/-! ## Loops -/

/-- A `uint8_t` loop whose bound is at most 255 leaves through its condition
when given enough fuel, having run the body for `i, i+1, ..., bound-1`. -/
theorem forU8_eq_foldl {α : Type} (bound : Nat) (body : Nat → α → α) (hb : bound ≤ 255) :
    ∀ (fuel i : Nat) (st : α), i ≤ bound → bound - i < fuel →
      forU8 bound body fuel i st
        = some ((List.range' i (bound - i)).foldl (fun s j => body j s) st) := by
  intro fuel
  induction fuel with
  | zero => intro i st _ h; omega
  | succ fuel ih =>
    intro i st hi hf
    by_cases hlt : i < bound
    · have hmod : (i + 1) % 256 = i + 1 := Nat.mod_eq_of_lt (by omega)
      have hsub : bound - i = (bound - (i + 1)) + 1 := by omega
      rw [forU8, if_pos hlt, hmod, ih (i + 1) (body i st) (by omega) (by omega), hsub,
        List.range'_succ, List.foldl_cons]
    · have hz : bound - i = 0 := by omega
      rw [forU8, if_neg hlt, hz]
      rfl


/-! ## Phase 1 -/

section Phase1

variable {σ : Type}

theorem take_succ_set (l : List Nat) (k a : Nat) (h : k < l.length) :
    (l.set k a).take (k + 1) = l.take k ++ [a] := by
  rw [List.take_succ, List.set_take, List.set_eq_of_length_le (by simp),
    List.getElem?_set_self h]
  rfl

theorem acksUpTo_succ (t : Transport σ) (s : σ) (n : Nat) :
    acksUpTo t s (n + 1)
      = acksUpTo t s n ++ (if probeStatus t s (n + 1) = 0 then [n + 1] else []) := by
  unfold acksUpTo
  rw [List.range'_1_concat, List.filter_append, Nat.add_comm 1 n]
  by_cases h : probeStatus t s (n + 1) = 0
  · simp [h]
  · simp [h]

theorem sweepCalls_succ (n : Nat) :
    sweepCalls (n + 1)
      = sweepCalls n ++ [BusCall.beginTransmission (n + 1), BusCall.endTransmission true] := by
  unfold sweepCalls
  rw [List.range'_1_concat, List.flatMap_append]
  simp [Nat.add_comm]

theorem sweepInv_zero (t : Transport σ) (w : World σ) :
    SweepInv t w 0 (w, Locals.init) where
  bus := rfl
  calls := by simp [sweepCalls]
  regReads := rfl
  serial := rfl
  size := by simp [Locals.init]
  count := by simp [Locals.init, acksUpTo]
  found := by simp [Locals.init, acksUpTo]
  stores := by simp [Locals.init]

theorem sweepInv_step (t : Transport σ) (w : World σ) (n : Nat) (st : World σ × Locals)
    (h : SweepInv t w n st) : SweepInv t w (n + 1) (sweepBody t (n + 1) st) := by
  obtain ⟨hbus, hcalls, hreads, hserial, hsize, hcount, hfound, hstores⟩ := h
  have hst : probeStatus t w.bus (n + 1) = (probeTx t st.1.bus (n + 1)).2 := by
    simp [probeStatus, hbus]
  have hw : (Wire.endTransmission t true (Wire.beginTransmission t (n + 1) st.1)).1
      = { st.1 with bus := (probeTx t st.1.bus (n + 1)).1
                    calls := st.1.calls ++ [BusCall.beginTransmission (n + 1),
                      BusCall.endTransmission true] } := by
    simp [Wire.endTransmission, Wire.beginTransmission, probeTx]
  have he : (Wire.endTransmission t true (Wire.beginTransmission t (n + 1) st.1)).2 % 256
      = (probeTx t st.1.bus (n + 1)).2 := by
    simp [Wire.endTransmission, Wire.beginTransmission, probeTx]
  by_cases hz : (probeTx t st.1.bus (n + 1)).2 = 0
  · by_cases hc : st.2.foundCount < 32
    · have hlen : (acksUpTo t w.bus n).length = st.2.foundCount := by omega
      have hbody : sweepBody t (n + 1) st
          = ((Wire.endTransmission t true (Wire.beginTransmission t (n + 1) st.1)).1,
              st.2.push (n + 1)) := by
        simp only [sweepBody, he, hz, hc, if_true]
      have hacks : acksUpTo t w.bus (n + 1) = acksUpTo t w.bus n ++ [n + 1] := by
        rw [acksUpTo_succ, hst, if_pos hz]
      have hmod : (st.2.foundCount + 1) % 256 = st.2.foundCount + 1 :=
        Nat.mod_eq_of_lt (by omega)
      have hfull : st.2.foundAddrs.take st.2.foundCount = acksUpTo t w.bus n := by
        rw [hfound, List.take_of_length_le (by omega)]
      rw [hbody, hw]
      refine ⟨?_, ?_, hreads, hserial, ?_, ?_, ?_, ?_⟩
      · simp [busAfterSweep, hbus]
      · simp [hcalls, sweepCalls_succ]
      · simp [Locals.push, hsize]
      · simp only [Locals.push, hmod, hacks, List.length_append, List.length_singleton]
        omega
      · simp only [Locals.push, hmod, hacks]
        rw [take_succ_set _ _ _ (by omega), hfull,
          List.take_of_length_le (by simp; omega)]
      · simp only [Locals.push, hmod, hstores, List.range_succ]
    · have hbody : sweepBody t (n + 1) st
          = ((Wire.endTransmission t true (Wire.beginTransmission t (n + 1) st.1)).1, st.2) := by
        simp only [sweepBody, he, hz, hc, if_true, if_false]
      have hacks : acksUpTo t w.bus (n + 1) = acksUpTo t w.bus n ++ [n + 1] := by
        rw [acksUpTo_succ, hst, if_pos hz]
      rw [hbody, hw]
      refine ⟨?_, ?_, hreads, hserial, hsize, ?_, ?_, hstores⟩
      · simp [busAfterSweep, hbus]
      · simp [hcalls, sweepCalls_succ]
      · simp only [hacks, List.length_append, List.length_singleton]
        omega
      · simp only [hacks]
        rw [hfound, List.take_append_of_le_length (by omega)]
  · have hbody : sweepBody t (n + 1) st
        = ((Wire.endTransmission t true (Wire.beginTransmission t (n + 1) st.1)).1, st.2) := by
      simp only [sweepBody, he, hz, if_false]
    have hacks : acksUpTo t w.bus (n + 1) = acksUpTo t w.bus n := by
      rw [acksUpTo_succ, hst, if_neg hz, List.append_nil]
    rw [hbody, hw]
    refine ⟨?_, ?_, hreads, hserial, hsize, ?_, ?_, hstores⟩
    · simp [busAfterSweep, hbus]
    · simp [hcalls, sweepCalls_succ]
    · rw [hacks]; exact hcount
    · rw [hacks]; exact hfound

theorem sweepInv_foldl (t : Transport σ) (w : World σ) (n : Nat) :
    SweepInv t w n ((List.range' 1 n).foldl (fun s j => sweepBody t j s) (w, Locals.init)) := by
  induction n with
  | zero => exact sweepInv_zero t w
  | succ n ih =>
    rw [List.range'_1_concat, List.foldl_append, List.foldl_cons, List.foldl_nil,
      Nat.add_comm 1 n]
    exact sweepInv_step t w n _ ih

/-- Phase 1 terminates, and its result satisfies the invariant for 126. -/
theorem sweep_spec (t : Transport σ) (w : World σ) :
    ∃ st, sweep t w = some st ∧ SweepInv t w 126 st := by
  refine ⟨_, ?_, sweepInv_foldl t w 126⟩
  unfold sweep loopFuel
  rw [forU8_eq_foldl 127 _ (by omega) 256 1 _ (by omega) (by omega)]

end Phase1

/-! ## Register reads and Phase 2 -/

section Phase2

variable {σ : Type}

/-- What `readReg8` does to the world and what it returns, in terms of the
answers of the bus. -/
theorem readReg8_eq (t : Transport σ) (a r : Nat) (w : World σ) :
    readReg8 t a r w
      = ({ bus := readBus t w.bus a r
           calls := w.calls ++ readCalls t w.bus a r
           regReads := w.regReads ++ [(a, r)]
           serial := w.serial }, readValue t w.bus a r) := by
  by_cases h1 : (selectTx t w.bus a r).2 = 0
  · by_cases h2 : (requestTx t w.bus a r).2 = 1
    · have h1' := h1
      have h2' := h2
      simp only [selectTx, requestTx] at h1' h2'
      simp [readReg8, readBus, readCalls, readValue, readFails, deliveredByte, h1, h2,
        Wire.beginTransmission, Wire.write, Wire.endTransmission, Wire.requestFrom, Wire.read,
        h1', h2', fetchTx, requestTx, selectTx]
    · have h1' := h1
      have h2' := h2
      simp only [selectTx, requestTx] at h1' h2'
      simp [readReg8, readBus, readCalls, readValue, readFails, h1, h2,
        Wire.beginTransmission, Wire.write, Wire.endTransmission, Wire.requestFrom,
        h1', h2', requestTx, selectTx]
  · have h1' := h1
    simp only [selectTx] at h1'
    simp [readReg8, readBus, readCalls, readValue, readFails, h1,
      Wire.beginTransmission, Wire.write, Wire.endTransmission, h1', selectTx]

theorem printHex8_eq (v : Nat) (w : World σ) :
    printHex8 v w = { w with serial := w.serial ++ hexCalls v } := by
  by_cases h : v < 16 <;> simp [printHex8, hexCalls, h, Serial.print, Serial.printNum]

theorem probeBody_eq (t : Transport σ) (l : Locals) (i : Nat) (w : World σ) :
    probeBody t l i w = deviceStep t (l.foundAddrs.getD i 0) w := rfl

theorem deviceStep_eq (t : Transport σ) (a : Nat) (w : World σ) :
    deviceStep t a w
      = { bus := deviceBus t w.bus a
          calls := w.calls ++ deviceBusCalls t w.bus a
          regReads := w.regReads ++ [(a, 0xD0), (a, 0x00), (a, 0x0F)]
          serial := w.serial ++ reportCalls (a, deviceValues t w.bus a) } := by
  simp [deviceStep, readReg8_eq, printHex8_eq, Serial.print, Serial.println, Serial.newline,
    deviceBus, deviceBusCalls, reportCalls, deviceValues, regLabel]

theorem foldl_deviceStep (t : Transport σ) (found : List Nat) :
    ∀ w : World σ, found.foldl (fun s a => deviceStep t a s) w
      = { bus := idBus t w.bus found
          calls := w.calls ++ idBusCalls t w.bus found
          regReads := w.regReads ++ regSeq found
          serial := w.serial ++ (idReport t w.bus found).flatMap reportCalls } := by
  induction found with
  | nil => intro w; simp [idBus, idBusCalls, regSeq, idReport]
  | cons a rest ih =>
    intro w
    rw [List.foldl_cons, ih, deviceStep_eq]
    simp [idBus, idBusCalls, regSeq, idReport] at *

theorem map_getD_range (xs : List Nat) (l : List Nat) (k : Nat)
    (h : l.take k = xs) (hk : k ≤ l.length) :
    (List.range' 0 k).map (fun i => l.getD i 0) = xs := by
  subst h
  apply List.ext_getElem
  · simp [hk]
  · intro i h1 h2
    simp at h1
    simp [List.getElem_take, List.getElem?_eq_getElem (show i < l.length by omega)]

theorem foldl_probeBody (t : Transport σ) (l : Locals) (found : List Nat)
    (h : l.foundAddrs.take l.foundCount = found) (hk : l.foundCount ≤ l.foundAddrs.length)
    (w : World σ) :
    (List.range' 0 l.foundCount).foldl (fun s j => probeBody t l j s) w
      = found.foldl (fun s a => deviceStep t a s) w := by
  rw [← map_getD_range found l.foundAddrs l.foundCount h hk, List.foldl_map]
  rfl

theorem foldl_listBody (l : Locals) (found : List Nat)
    (h : l.foundAddrs.take l.foundCount = found) (hk : l.foundCount ≤ l.foundAddrs.length)
    (w : World σ) : ∀ k, k ≤ l.foundCount →
    (List.range' 0 k).foldl (fun s j => listBody l j s) w
      = { w with serial := w.serial ++ (List.range k).flatMap (fun i =>
            SerialCall.print "0x" :: hexCalls (found.getD i 0) ++
              (if i + 1 < found.length then [SerialCall.print ", "] else [])) } := by
  have hlen : found.length = l.foundCount := by
    rw [← h, List.length_take]; omega
  intro k
  induction k with
  | zero => intro _; simp
  | succ k ih =>
    intro hk1
    have hget : l.foundAddrs.getD k 0 = found.getD k 0 := by
      rw [← h]
      simp [List.getElem?_take, show k < l.foundCount by omega]
    simp only [List.getD_eq_getElem?_getD] at hget
    rw [List.range'_1_concat, List.foldl_append, ih (by omega), List.range_succ,
      List.flatMap_append]
    by_cases hl : k + 1 < l.foundCount
    · simp [listBody, printHex8_eq, Serial.print, hget, hlen, hl]
    · simp [listBody, printHex8_eq, Serial.print, hget, hlen, hl]

end Phase2

/-! ## The whole cycle -/

section Cycle

variable {σ : Type}

/-- Phase 1 terminates with the buffer holding `presence` in its first
`foundCount` cells. -/
theorem sweep_presence (t : Transport σ) (w : World σ) :
    ∃ st, sweep t w = some st ∧ SweepInv t w 126 st ∧
      st.2.foundAddrs.take st.2.foundCount = presence t w.bus ∧
      st.2.foundCount = (presence t w.bus).length ∧ st.2.foundCount ≤ 32 := by
  obtain ⟨st, hs, inv⟩ := sweep_spec t w
  refine ⟨st, hs, inv, inv.found, ?_, ?_⟩
  · have h := inv.count
    simp only [presence, List.length_take]
    exact h
  · have h := inv.count
    omega

/-- A cycle terminates, and its effect on the world is given by `scanBus`,
`scanCalls`, `scanReads` and `scanSerial`. -/
theorem scanOnce_eq (t : Transport σ) (probeIds : Bool) (w : World σ) :
    scanOnce t probeIds w
      = some { bus := scanBus t probeIds w.bus
               calls := w.calls ++ scanCalls t probeIds w.bus
               regReads := w.regReads ++ scanReads t probeIds w.bus
               serial := w.serial ++ scanSerial t probeIds w.bus } := by
  obtain ⟨⟨w1, l⟩, hs, inv, hfound, hcount, hle⟩ := sweep_presence t w
  obtain ⟨hbus, hcalls, hreads, hserial, hsize, -, -, -⟩ := inv
  simp only at hbus hcalls hreads hserial hsize hfound hcount hle
  have hk : l.foundCount ≤ l.foundAddrs.length := by omega
  unfold scanOnce
  rw [hs]
  simp only
  by_cases h0 : l.foundCount = 0
  · have hnil : presence t w.bus = [] := List.length_eq_zero.mp (by omega)
    simp [h0, hnil, scanBus, scanCalls, scanReads, scanSerial, phase2Runs, addressReport,
      headerCalls, Serial.print, Serial.printNum, Serial.println, Serial.newline, hbus, hcalls,
      hreads, hserial]
  · have hne : presence t w.bus ≠ [] := by
      intro h; rw [h] at hcount; exact h0 hcount
    have hemp : (presence t w.bus).isEmpty = false := by
      cases h : presence t w.bus with
      | nil => exact absurd h hne
      | cons _ _ => rfl
    rw [if_neg h0]
    unfold loopFuel
    rw [forU8_eq_foldl l.foundCount _ (by omega) 256 0 _ (Nat.zero_le _) (by omega)]
    simp only [Nat.sub_zero]
    rw [foldl_listBody l (presence t w.bus) hfound hk _ l.foundCount (Nat.le_refl _)]
    cases probeIds with
    | false =>
      simp [scanBus, scanCalls, scanReads, scanSerial, phase2Runs, addressReport, headerCalls,
        listCalls, hne, hemp, Serial.print, Serial.printNum, Serial.newline, hbus, hcalls,
        hreads, hserial, hcount]
    | true =>
      simp only [if_true]
      rw [forU8_eq_foldl l.foundCount _ (by omega) 256 0 _ (Nat.zero_le _) (by omega)]
      simp only [Nat.sub_zero]
      rw [foldl_probeBody t l (presence t w.bus) hfound hk, foldl_deviceStep]
      simp [scanBus, scanCalls, scanReads, scanSerial, phase2Runs, addressReport, headerCalls,
        listCalls, hne, hemp, Serial.print, Serial.printNum, Serial.newline, hbus, hcalls,
        hreads, hserial, hcount]

end Cycle

/-! ## The presence result -/

section Presence

variable {σ : Type}

theorem acksUpTo_pairwise (t : Transport σ) (s : σ) (n : Nat) :
    (acksUpTo t s n).Pairwise (· < ·) :=
  List.Pairwise.filter _ (List.pairwise_lt_range' 1 n)

theorem mem_acksUpTo (t : Transport σ) (s : σ) (n a : Nat) :
    a ∈ acksUpTo t s n ↔ 1 ≤ a ∧ a ≤ n ∧ probeStatus t s a = 0 := by
  simp only [acksUpTo, List.mem_filter, List.mem_range'_1, decide_eq_true_eq]
  omega

/-- The acknowledging addresses up to `n` are those below `a`, then `a` if it
acknowledges, then those above `a`. -/
theorem acksUpTo_split (t : Transport σ) (s : σ) (n a : Nat) (h1 : 1 ≤ a) (h2 : a ≤ n) :
    acksUpTo t s n
      = acksUpTo t s (a - 1) ++ ((if probeStatus t s a = 0 then [a] else []) ++
          (List.range' (a + 1) (n - a)).filter (fun b => probeStatus t s b = 0)) := by
  have hr : List.range' 1 n = List.range' 1 (a - 1) ++ (a :: List.range' (a + 1) (n - a)) := by
    have e1 : n = ((n - a) + 1) + (a - 1) := by omega
    have e2 : 1 + (a - 1) = a := by omega
    have h := List.range'_append_1 1 (a - 1) ((n - a) + 1)
    rw [e2, ← e1, List.range'_succ] at h
    exact h.symm
  unfold acksUpTo
  rw [hr, List.filter_append, List.filter_cons]
  by_cases h : probeStatus t s a = 0 <;> simp [h]

/-- An address is among the first 32 acknowledging addresses exactly when it
is in `[1, 126]`, acknowledges, and fewer than 32 addresses below it do. -/
theorem mem_presence (t : Transport σ) (s : σ) (a : Nat) :
    a ∈ presence t s ↔
      1 ≤ a ∧ a ≤ 126 ∧ probeStatus t s a = 0 ∧ (acksUpTo t s (a - 1)).length < 32 := by
  constructor
  · intro h
    have hm := (mem_acksUpTo t s 126 a).1 (List.mem_of_mem_take h)
    obtain ⟨h1, h2, h3⟩ := hm
    refine ⟨h1, h2, h3, ?_⟩
    by_contra hlen
    rw [presence, acksUpTo_split t s 126 a h1 h2, List.take_append_of_le_length (by omega)] at h
    have hb := (mem_acksUpTo t s (a - 1) a).1 (List.mem_of_mem_take h)
    omega
  · rintro ⟨h1, h2, h3, hlen⟩
    rw [presence, acksUpTo_split t s 126 a h1 h2, if_pos h3, List.take_append_eq_append_take]
    apply List.mem_append_right
    have hpos : 32 - (acksUpTo t s (a - 1)).length
        = (32 - (acksUpTo t s (a - 1)).length - 1) + 1 := by omega
    rw [hpos]
    simp

theorem presence_pairwise (t : Transport σ) (s : σ) :
    (presence t s).Pairwise (· < ·) :=
  (acksUpTo_pairwise t s 126).sublist (List.take_sublist _ _)

end Presence

/-! ## Claims about Phase 1 -/

section Phase1Claims

variable {σ : Type}

/-- C1: Phase 1 of `scanOnce` terminates, and the presence result it collects
(the first `foundCount` cells of `foundAddrs`) is the ascending list of the
addresses of `[1, 126]` whose address-only write gets status 0, cut after its
first 32 entries; every other status counts as absent.  `foundCount` is the
length of that list, the list is strictly ascending, and an address occurs in
it once if it is in `[1, 126]`, acknowledges and has fewer than 32
acknowledging addresses below it, and not at all otherwise. -/
theorem presence_result_eq (t : Transport σ) (w : World σ) :
    ∃ st, sweep t w = some st ∧
      st.2.foundAddrs.take st.2.foundCount
        = ((List.range' 1 126).filter (fun a => probeStatus t w.bus a = 0)).take 32 ∧
      st.2.foundCount
        = min 32 ((List.range' 1 126).filter (fun a => probeStatus t w.bus a = 0)).length ∧
      (st.2.foundAddrs.take st.2.foundCount).Pairwise (· < ·) ∧
      ∀ a, (st.2.foundAddrs.take st.2.foundCount).count a
        = if 1 ≤ a ∧ a ≤ 126 ∧ probeStatus t w.bus a = 0 ∧
            ((List.range' 1 (a - 1)).filter (fun b => probeStatus t w.bus b = 0)).length < 32
          then 1 else 0 := by
  obtain ⟨st, hs, inv, hfound, -, -⟩ := sweep_presence t w
  refine ⟨st, hs, inv.found, inv.count, ?_, ?_⟩
  · rw [hfound]
    exact presence_pairwise t w.bus
  · intro a
    rw [hfound]
    have hnodup : (presence t w.bus).Nodup :=
      (presence_pairwise t w.bus).imp (fun h => Nat.ne_of_lt h)
    have hmem := mem_presence t w.bus a
    unfold acksUpTo at hmem
    split_ifs with h
    · exact List.count_eq_one_of_mem hnodup (hmem.2 h)
    · exact List.count_eq_zero_of_not_mem (fun hin => h (hmem.1 hin))

/-- C1, scenario: on a bus where only 0x23 and 0x76 acknowledge, Phase 1
collects `[0x23, 0x76]` with count 2. -/
theorem presence_result_two :
    (sweep (simTransport busTwo) (World.init SimState.idle)).map
        (fun st => (st.2.foundAddrs.take st.2.foundCount, st.2.foundCount))
      = some ([0x23, 0x76], 2) := by
  obtain ⟨st, hs, hf, hc, -⟩ :=
    presence_result_eq (simTransport busTwo) (World.init SimState.idle)
  rw [hs, Option.map_some', hf, hc]
  decide

/-- C2: Phase 1 of `scanOnce` terminates with `foundCount` at most 32, the
buffer still has its 32 cells, and the indices written into it are
`0, 1, ..., foundCount - 1`, each strictly below 32. -/
theorem presence_bounded (t : Transport σ) (w : World σ) :
    ∃ st, sweep t w = some st ∧ st.2.foundCount ≤ 32 ∧ st.2.foundAddrs.length = 32 ∧
      st.2.stores = List.range st.2.foundCount ∧ ∀ i ∈ st.2.stores, i < 32 := by
  obtain ⟨st, hs, inv, -, -, hle⟩ := sweep_presence t w
  refine ⟨st, hs, hle, inv.size, inv.stores, ?_⟩
  intro i hi
  rw [inv.stores, List.mem_range] at hi
  omega

set_option maxRecDepth 100000 in
/-- C2, scenario: on a bus where all 126 addresses acknowledge, Phase 1 ends
with `foundCount = 32`, having written the cells `0, ..., 31`, which hold the
addresses `1, ..., 32`. -/
theorem presence_bounded_all :
    (sweep (simTransport busAll) (World.init SimState.idle)).map
        (fun st => (st.2.foundCount, st.2.stores, st.2.foundAddrs))
      = some (32, List.range 32, List.range' 1 32) := by
  decide

theorem beginAddrs_sweepCalls (n : Nat) : beginAddrs (sweepCalls n) = List.range' 1 n := by
  induction n with
  | zero => rfl
  | succ n ih =>
    rw [sweepCalls_succ, List.range'_1_concat, Nat.add_comm 1 n]
    simp only [beginAddrs] at ih ⊢
    rw [List.filterMap_append, ih]
    rfl

/-- C3: Phase 1 of `scanOnce` terminates, and the `Wire` calls it makes are,
for `a = 1, 2, ..., 126` in this order, `beginTransmission(a)` immediately
followed by `endTransmission(true)`, with no `write` in between, whatever the
bus answers; so the addresses probed are exactly `1, ..., 126`, and these are
the first calls of the whole cycle. -/
theorem sweep_probes_all (t : Transport σ) (probeIds : Bool) (w : World σ) :
    ∃ st w', sweep t w = some st ∧ scanOnce t probeIds w = some w' ∧
      st.1.calls = w.calls ++ (List.range' 1 126).flatMap
        (fun a => [BusCall.beginTransmission a, BusCall.endTransmission true]) ∧
      beginAddrs (st.1.calls.drop w.calls.length) = List.range' 1 126 ∧
      st.1.calls <+: w'.calls := by
  obtain ⟨st, hs, inv⟩ := sweep_spec t w
  refine ⟨st, _, hs, scanOnce_eq t probeIds w, inv.calls, ?_, ?_⟩
  · rw [inv.calls, List.drop_left]
    exact beginAddrs_sweepCalls 126
  · rw [inv.calls]
    simp only [scanCalls, ← List.append_assoc]
    exact List.prefix_append _ _

set_option maxRecDepth 100000 in
/-- C3, scenario: on a bus where all 126 addresses acknowledge, the addresses
probed are still `1, ..., 126`, in 252 calls, though only 32 are collected. -/
theorem sweep_probes_all_acks :
    (sweep (simTransport busAll) (World.init SimState.idle)).map
        (fun st => (beginAddrs st.1.calls, st.1.calls.length, st.2.foundCount))
      = some (List.range' 1 126, 252, 32) := by
  decide

end Phase1Claims

/-! ## Claims about register reads and Phase 2 -/

section Phase2Claims

variable {σ : Type}

/-- C4: with `probeIds = true` the cycle terminates, and the `readReg8`
invocations it makes are, for each address `a` of the presence result in its
ascending order, `(a, 0xD0)`, `(a, 0x00)`, `(a, 0x0F)` in this order:
three times `foundCount` invocations, whatever the bus answers to any of
them. -/
theorem phase2_reads (t : Transport σ) (w : World σ) :
    ∃ st w', sweep t w = some st ∧ scanOnce t true w = some w' ∧
      w'.regReads = w.regReads ++ (st.2.foundAddrs.take st.2.foundCount).flatMap
        (fun a => [(a, 0xD0), (a, 0x00), (a, 0x0F)]) ∧
      w'.regReads.length = w.regReads.length + 3 * st.2.foundCount := by
  obtain ⟨st, hs, -, hfound, hcount, -⟩ := sweep_presence t w
  have hreads : scanReads t true w.bus = regSeq (presence t w.bus) := by
    cases h : presence t w.bus with
    | nil => simp [scanReads, phase2Runs, h, regSeq]
    | cons a rest => simp [scanReads, phase2Runs, h]
  have hlen : ∀ l : List Nat, (regSeq l).length = 3 * l.length := by
    intro l
    induction l with
    | nil => rfl
    | cons a rest ih =>
      simp only [regSeq, List.flatMap_cons, List.length_append, List.length_cons,
        List.length_nil] at ih ⊢
      omega
  refine ⟨st, _, hs, scanOnce_eq t true w, ?_, ?_⟩
  · rw [hfound, hreads]
    rfl
  · simp only [hreads, List.length_append, hlen, hcount]

set_option maxRecDepth 100000 in
/-- C4, scenario: on the bus `busMixed` the devices 0x23 and 0x76 are found;
all reads of 0x23 and the first read of 0x76 fail, and the six reads are
made all the same. -/
theorem phase2_reads_mixed :
    (scanOnce (simTransport busMixed) true (World.init SimState.idle)).map (fun w => w.regReads)
      = some [(0x23, 0xD0), (0x23, 0x00), (0x23, 0x0F),
              (0x76, 0xD0), (0x76, 0x00), (0x76, 0x0F)] := by
  decide

/-- C5: `readReg8(addr, reg)` returns 0xFF when the register-select write
(ended with a repeated start) gets a non-zero status; it returns 0xFF when
that write is acknowledged and the one-byte request returns a count other
than 1; otherwise it returns the value `read()` delivers, converted to
`uint8_t`, which is that value itself when it is a byte. -/
theorem readReg8_result (t : Transport σ) (addr reg : Nat) (w : World σ) :
    ((selectTx t w.bus addr reg).2 ≠ 0 → (readReg8 t addr reg w).2 = 0xFF) ∧
    ((selectTx t w.bus addr reg).2 = 0 → (requestTx t w.bus addr reg).2 ≠ 1 →
      (readReg8 t addr reg w).2 = 0xFF) ∧
    ((selectTx t w.bus addr reg).2 = 0 → (requestTx t w.bus addr reg).2 = 1 →
      ((readReg8 t addr reg w).2 : Int) = (fetchTx t w.bus addr reg).2 % 256 ∧
      (0 ≤ (fetchTx t w.bus addr reg).2 → (fetchTx t w.bus addr reg).2 < 256 →
        ((readReg8 t addr reg w).2 : Int) = (fetchTx t w.bus addr reg).2)) := by
  rw [readReg8_eq]
  refine ⟨?_, ?_, ?_⟩
  · intro h
    simp [readValue, readFails, h]
  · intro _ h
    simp [readValue, readFails, h]
  · intro h1 h2
    have hv : readValue t w.bus addr reg = ((fetchTx t w.bus addr reg).2 % 256).toNat := by
      simp [readValue, readFails, deliveredByte, h1, h2]
    have hnn : 0 ≤ (fetchTx t w.bus addr reg).2 % 256 := Int.emod_nonneg _ (by decide)
    refine ⟨?_, ?_⟩
    · simp only [hv]
      exact Int.toNat_of_nonneg hnn
    · intro h0 h256
      simp only [hv]
      rw [Int.toNat_of_nonneg hnn]
      exact Int.emod_eq_of_lt h0 h256

/-- C5, scenario: on the bus `busMixed`, reading `(0x23, 0xD0)` fails at the
select write and gives 0xFF, reading `(0x76, 0xD0)` fails at the request and
gives 0xFF, and reading `(0x76, 0x00)` gives the byte 0x60. -/
theorem readReg8_result_mixed :
    (readReg8 (simTransport busMixed) 0x23 0xD0 (World.init SimState.idle)).2 = 0xFF ∧
    (readReg8 (simTransport busMixed) 0x76 0xD0 (World.init SimState.idle)).2 = 0xFF ∧
    ((readReg8 (simTransport busMixed) 0x76 0x00 (World.init SimState.idle)).2 : Int) = 0x60 :=
  ⟨(readReg8_result (simTransport busMixed) 0x23 0xD0 (World.init SimState.idle)).1
      (by decide),
   (readReg8_result (simTransport busMixed) 0x76 0xD0 (World.init SimState.idle)).2.1
      (by decide) (by decide),
   ((readReg8_result (simTransport busMixed) 0x76 0x00 (World.init SimState.idle)).2.2
      (by decide) (by decide)).2 (by decide) (by decide)⟩

theorem idReport_map_fst (t : Transport σ) (found : List Nat) :
    ∀ s, (idReport t s found).map Prod.fst = found := by
  induction found with
  | nil => intro s; rfl
  | cons a rest ih => intro s; simp [idReport, ih]

/-- Every entry of an identification report lists the registers 0xD0, 0x00,
0x0F, and each of its values is the value of the read of its own address and
register, issued in some state of the bus. -/
theorem idReport_entries (t : Transport σ) (found : List Nat) :
    ∀ s, ∀ e ∈ idReport t s found, e.2.map Prod.fst = [0xD0, 0x00, 0x0F] ∧
      ∀ rv ∈ e.2, ∃ s', rv.2 = readValue t s' e.1 rv.1 := by
  induction found with
  | nil => intro s e he; simp [idReport] at he
  | cons a rest ih =>
    intro s e he
    rw [idReport, List.mem_cons] at he
    rcases he with rfl | he
    · refine ⟨rfl, ?_⟩
      intro rv hrv
      simp only [deviceValues, List.mem_cons, List.mem_singleton, List.not_mem_nil,
        or_false] at hrv
      rcases hrv with rfl | rfl | rfl
      · exact ⟨_, rfl⟩
      · exact ⟨_, rfl⟩
      · exact ⟨_, rfl⟩
    · exact ih _ e he

/-- C6: with `probeIds = true` the cycle terminates and prints, after the
address-list report, one report per address of the presence result, in its
order, none being skipped.  Each report lists the registers 0xD0, 0x00, 0x0F
in this order, and the value printed for a register is what `readReg8`
returns for that address and register in the state the bus is in when the
read is issued: 0xFF when that read fails (select write not acknowledged, or
byte count other than 1) and the delivered byte otherwise.  No other read
enters that value. -/
theorem phase2_report (t : Transport σ) (w : World σ) :
    ∃ st w', sweep t w = some st ∧ scanOnce t true w = some w' ∧
      w'.serial = w.serial ++ addressReport (st.2.foundAddrs.take st.2.foundCount) ++
        (idReport t st.1.bus (st.2.foundAddrs.take st.2.foundCount)).flatMap reportCalls ++
        [SerialCall.newline] ∧
      (idReport t st.1.bus (st.2.foundAddrs.take st.2.foundCount)).map Prod.fst
        = st.2.foundAddrs.take st.2.foundCount ∧
      ∀ e ∈ idReport t st.1.bus (st.2.foundAddrs.take st.2.foundCount),
        e.2.map Prod.fst = [0xD0, 0x00, 0x0F] ∧
        ∀ rv ∈ e.2, ∃ s',
          rv.2 = (readReg8 t e.1 rv.1 (World.init s')).2 ∧
          rv.2 = if readFails t s' e.1 rv.1 then 0xFF else deliveredByte t s' e.1 rv.1 := by
  obtain ⟨st, hs, inv, hfound, -, -⟩ := sweep_presence t w
  have hser : scanSerial t true w.bus = addressReport (presence t w.bus) ++
      (idReport t (busAfterSweep t w.bus 126) (presence t w.bus)).flatMap reportCalls ++
      [SerialCall.newline] := by
    cases h : presence t w.bus with
    | nil => simp [scanSerial, phase2Runs, h, idReport]
    | cons a rest => simp [scanSerial, phase2Runs, h]
  refine ⟨st, _, hs, scanOnce_eq t true w, ?_, idReport_map_fst t _ _, ?_⟩
  · simp only [hfound, inv.bus, hser, List.append_assoc]
  · intro e he
    obtain ⟨hregs, hvals⟩ := idReport_entries t _ _ e he
    refine ⟨hregs, ?_⟩
    intro rv hrv
    obtain ⟨s', hs'⟩ := hvals rv hrv
    refine ⟨s', ?_, hs'⟩
    rw [readReg8_eq]
    exact hs'

set_option maxRecDepth 100000 in
/-- C6, scenario: on the bus `busOne` the address 0x23 acknowledges in
Phase 1 and all three of its reads fail; its report is
`[(0xD0, 0xFF), (0x00, 0xFF), (0x0F, 0xFF)]`.  On the bus `busMixed` the
four failing reads neither stop nor change the two that succeed. -/
theorem phase2_report_failed :
    idReport (simTransport busOne)
        (busAfterSweep (simTransport busOne) SimState.idle 126)
        (presence (simTransport busOne) SimState.idle)
      = [(0x23, [(0xD0, 0xFF), (0x00, 0xFF), (0x0F, 0xFF)])] ∧
    (scanOnce (simTransport busOne) true (World.init SimState.idle)).map
        (fun w => Serial.render w.serial)
      = some ("I2C addresses found (1): 0x23\r\n" ++
          "Device 0x23 ID probe:\r\n" ++
          "  reg 0xD0 = 0xFF\r\n  reg 0x00 = 0xFF\r\n  reg 0x0F = 0xFF\r\n\r\n") ∧
    idReport (simTransport busMixed)
        (busAfterSweep (simTransport busMixed) SimState.idle 126)
        (presence (simTransport busMixed) SimState.idle)
      = [(0x23, [(0xD0, 0xFF), (0x00, 0xFF), (0x0F, 0xFF)]),
         (0x76, [(0xD0, 0xFF), (0x00, 0x60), (0x0F, 0xA5)])] := by
  decide

end Phase2Claims

/-! ## Claims about the cycle -/

section CycleClaims

variable {σ : Type}

/-- C7: when no address of `[1, 126]` acknowledges its probe, the cycle
terminates for either value of `probeIds`, invokes `readReg8` not once, makes
no `Wire` call beyond the 126 probes, and its whole output is the line
`I2C addresses found (0): none` followed by one empty line. -/
theorem no_devices (t : Transport σ) (probeIds : Bool) (w : World σ)
    (h : ∀ a, 1 ≤ a → a ≤ 126 → probeStatus t w.bus a ≠ 0) :
    ∃ w', scanOnce t probeIds w = some w' ∧
      w'.regReads = w.regReads ∧
      w'.calls = w.calls ++ (List.range' 1 126).flatMap
        (fun a => [BusCall.beginTransmission a, BusCall.endTransmission true]) ∧
      w'.serial = w.serial ++
        [SerialCall.print "I2C addresses found (", SerialCall.printNum 0 10,
         SerialCall.print "): ", SerialCall.println "none", SerialCall.newline] ∧
      Serial.render
        [SerialCall.print "I2C addresses found (", SerialCall.printNum 0 10,
         SerialCall.print "): ", SerialCall.println "none", SerialCall.newline]
        = "I2C addresses found (0): none\r\n\r\n" := by
  have hnil : presence t w.bus = [] := by
    apply List.eq_nil_iff_forall_not_mem.mpr
    intro a ha
    obtain ⟨h1, h2, h3, -⟩ := (mem_presence t w.bus a).1 ha
    exact h a h1 h2 h3
  refine ⟨_, scanOnce_eq t probeIds w, ?_, ?_, ?_, by decide⟩
  · simp [scanReads, phase2Runs, hnil]
  · simp [scanCalls, phase2Runs, hnil, sweepCalls]
  · simp [scanSerial, phase2Runs, hnil, addressReport, headerCalls]

/-- C7, scenario: on the bus `busNone` no address acknowledges, and with and
without `probeIds` the cycle makes no register read and prints the "none"
report only. -/
theorem no_devices_none :
    (∀ a, 1 ≤ a → a ≤ 126 →
      probeStatus (simTransport busNone) (World.init SimState.idle).bus a ≠ 0) ∧
    (∃ w', scanOnce (simTransport busNone) true (World.init SimState.idle) = some w' ∧
      w'.regReads = [] ∧
      Serial.render w'.serial = "I2C addresses found (0): none\r\n\r\n") ∧
    (∃ w', scanOnce (simTransport busNone) false (World.init SimState.idle) = some w' ∧
      w'.regReads = [] ∧
      Serial.render w'.serial = "I2C addresses found (0): none\r\n\r\n") := by
  have hno : ∀ a, 1 ≤ a → a ≤ 126 →
      probeStatus (simTransport busNone) (World.init SimState.idle).bus a ≠ 0 := by
    intro a _ _
    simp [probeStatus, probeTx, simTransport, busNone, nack]
  refine ⟨hno, ?_, ?_⟩
  · obtain ⟨w', hw, hreads, -, hserial, hrender⟩ :=
      no_devices (simTransport busNone) true (World.init SimState.idle) hno
    refine ⟨w', hw, hreads, ?_⟩
    rw [hserial]
    exact hrender
  · obtain ⟨w', hw, hreads, -, hserial, hrender⟩ :=
      no_devices (simTransport busNone) false (World.init SimState.idle) hno
    refine ⟨w', hw, hreads, ?_⟩
    rw [hserial]
    exact hrender

/-- C8: with `probeIds = false` the cycle terminates, invokes `readReg8` not
once, and makes exactly the `Wire` calls of Phase 1; with `probeIds = true`
it makes the same Phase 1 calls first and prints the same address-list
report first.  The two runs differ by the reads, the `Wire` calls and the
device reports of Phase 2 only, which come before the closing empty line. -/
theorem probeIds_frame (t : Transport σ) (w : World σ) :
    ∃ st w0 w1, sweep t w = some st ∧
      scanOnce t false w = some w0 ∧ scanOnce t true w = some w1 ∧
      w0.regReads = w.regReads ∧
      w0.calls = st.1.calls ∧
      w0.serial = w.serial ++ addressReport (st.2.foundAddrs.take st.2.foundCount) ++
        [SerialCall.newline] ∧
      w1.calls = st.1.calls ++ idBusCalls t st.1.bus (st.2.foundAddrs.take st.2.foundCount) ∧
      w1.regReads = w.regReads ++ regSeq (st.2.foundAddrs.take st.2.foundCount) ∧
      w1.serial = w.serial ++ addressReport (st.2.foundAddrs.take st.2.foundCount) ++
        (idReport t st.1.bus (st.2.foundAddrs.take st.2.foundCount)).flatMap reportCalls ++
        [SerialCall.newline] := by
  obtain ⟨st, hs, inv, hfound, -, -⟩ := sweep_presence t w
  refine ⟨st, _, _, hs, scanOnce_eq t false w, scanOnce_eq t true w, ?_, ?_, ?_, ?_, ?_, ?_⟩
  · simp [scanReads, phase2Runs]
  · simp [scanCalls, phase2Runs, inv.calls]
  · simp [scanSerial, phase2Runs, hfound]
  · cases h : presence t w.bus with
    | nil => simp [scanCalls, phase2Runs, inv.calls, hfound, h, idBusCalls]
    | cons a rest => simp [scanCalls, phase2Runs, inv.calls, inv.bus, hfound, h]
  · cases h : presence t w.bus with
    | nil => simp [scanReads, phase2Runs, hfound, h, regSeq]
    | cons a rest => simp [scanReads, phase2Runs, hfound, h]
  · cases h : presence t w.bus with
    | nil => simp [scanSerial, phase2Runs, hfound, h, idReport]
    | cons a rest => simp [scanSerial, phase2Runs, inv.bus, hfound, h]

set_option maxRecDepth 100000 in
/-- C8, scenario: on the bus `busTwo`, without `probeIds` the cycle makes the
252 calls of Phase 1, no register read, and prints the address list and the
empty line; with `probeIds` its output starts with the same address list. -/
theorem probeIds_frame_two :
    (scanOnce (simTransport busTwo) false (World.init SimState.idle)).map
        (fun w => (w.calls.length, w.regReads, Serial.render w.serial))
      = some (252, [], "I2C addresses found (2): 0x23, 0x76\r\n\r\n") ∧
    (scanOnce (simTransport busTwo) true (World.init SimState.idle)).map
        (fun w => (w.regReads.length, Serial.render w.serial))
      = some (6, "I2C addresses found (2): 0x23, 0x76\r\n" ++
          "Device 0x23 ID probe:\r\n" ++
          "  reg 0xD0 = 0xFF\r\n  reg 0x00 = 0xFF\r\n  reg 0x0F = 0xFF\r\n" ++
          "Device 0x76 ID probe:\r\n" ++
          "  reg 0xD0 = 0xFF\r\n  reg 0x00 = 0xFF\r\n  reg 0x0F = 0xFF\r\n\r\n") := by
  decide

/-! ### Two cycles on a steady transport -/

theorem steady_sweep (t : Transport σ) (Inv : σ → Prop) (hst : Steady t Inv) (s : σ)
    (hs : Inv s) : ∀ n, Inv (busAfterSweep t s n) := by
  intro n
  induction n with
  | zero => exact hs
  | succ n ih => exact hst.probe_keeps _ _ ih

theorem steady_presence (t : Transport σ) (Inv : σ → Prop) (hst : Steady t Inv) (s s' : σ)
    (hs : Inv s) (hs' : Inv s') : presence t s = presence t s' := by
  have hp : ∀ a, probeStatus t s a = probeStatus t s' a := fun a =>
    hst.probe_same _ _ a (steady_sweep t Inv hst s hs _) (steady_sweep t Inv hst s' hs' _)
  simp only [presence, acksUpTo, hp]

theorem steady_read (t : Transport σ) (Inv : σ → Prop) (hst : Steady t Inv) (s s' : σ)
    (hs : Inv s) (hs' : Inv s') (a r : Nat) :
    readValue t s a r = readValue t s' a r ∧ readCalls t s a r = readCalls t s' a r := by
  have h1 := hst.select_same s s' a r hs hs'
  by_cases hsel : (selectTx t s a r).2 = 0
  · have h2 := hst.count_same s s' a r hs hs' hsel
    by_cases hcnt : (requestTx t s a r).2 = 1
    · have h3 := hst.byte_same s s' a r hs hs' hsel hcnt
      simp only [readValue, readFails, deliveredByte, readCalls, ← h1, ← h2, ← h3]
      exact ⟨trivial, trivial⟩
    · have hcnt' : ¬ (requestTx t s' a r).2 = 1 := h2 ▸ hcnt
      have hsel' : (selectTx t s' a r).2 = 0 := h1 ▸ hsel
      simp [readValue, readFails, readCalls, hsel, hsel', hcnt, hcnt']
  · have hsel' : ¬ (selectTx t s' a r).2 = 0 := h1 ▸ hsel
    simp [readValue, readFails, readCalls, hsel, hsel']

theorem steady_device (t : Transport σ) (Inv : σ → Prop) (hst : Steady t Inv) (s s' : σ)
    (hs : Inv s) (hs' : Inv s') (a : Nat) :
    deviceValues t s a = deviceValues t s' a ∧
      deviceBusCalls t s a = deviceBusCalls t s' a ∧ Inv (deviceBus t s a) := by
  have k1 := hst.read_keeps s a 0xD0 hs
  have k1' := hst.read_keeps s' a 0xD0 hs'
  have k2 := hst.read_keeps _ a 0x00 k1
  have k2' := hst.read_keeps _ a 0x00 k1'
  have k3 := hst.read_keeps _ a 0x0F k2
  obtain ⟨v1, c1⟩ := steady_read t Inv hst s s' hs hs' a 0xD0
  obtain ⟨v2, c2⟩ := steady_read t Inv hst _ _ k1 k1' a 0x00
  obtain ⟨v3, c3⟩ := steady_read t Inv hst _ _ k2 k2' a 0x0F
  refine ⟨?_, ?_, k3⟩
  · simp only [deviceValues, v1, v2, v3]
  · simp only [deviceBusCalls, c1, c2, c3]

theorem steady_id (t : Transport σ) (Inv : σ → Prop) (hst : Steady t Inv)
    (found : List Nat) : ∀ s s', Inv s → Inv s' →
      idReport t s found = idReport t s' found ∧
      idBusCalls t s found = idBusCalls t s' found ∧ Inv (idBus t s found) := by
  induction found with
  | nil => intro s s' hs _; exact ⟨rfl, rfl, hs⟩
  | cons a rest ih =>
    intro s s' hs hs'
    obtain ⟨hv, hc, hk⟩ := steady_device t Inv hst s s' hs hs' a
    obtain ⟨-, -, hk'⟩ := steady_device t Inv hst s' s hs' hs a
    obtain ⟨ihv, ihc, ihk⟩ := ih _ _ hk hk'
    refine ⟨?_, ?_, ihk⟩
    · simp only [idReport, hv, ihv]
    · simp only [idBusCalls, hc, ihc]

/-- On a steady transport the calls, reads and output of a cycle do not
depend on the state it starts in, and the cycle keeps the invariant. -/
theorem steady_scan (t : Transport σ) (Inv : σ → Prop) (hst : Steady t Inv)
    (probeIds : Bool) (s s' : σ) (hs : Inv s) (hs' : Inv s') :
    scanSerial t probeIds s = scanSerial t probeIds s' ∧
      scanCalls t probeIds s = scanCalls t probeIds s' ∧
      scanReads t probeIds s = scanReads t probeIds s' ∧ Inv (scanBus t probeIds s) := by
  have hp := steady_presence t Inv hst s s' hs hs'
  have hb := steady_sweep t Inv hst s hs 126
  have hb' := steady_sweep t Inv hst s' hs' 126
  obtain ⟨hv, hc, hk⟩ := steady_id t Inv hst (presence t s) _ _ hb hb'
  have hruns : phase2Runs t probeIds s = phase2Runs t probeIds s' := by
    simp only [phase2Runs, hp]
  refine ⟨?_, ?_, ?_, ?_⟩
  · simp only [scanSerial, ← hruns, ← hp, hv]
  · simp only [scanCalls, ← hruns, ← hp, hc]
  · simp only [scanReads, ← hruns, ← hp]
  · unfold scanBus
    split_ifs
    · exact hk
    · exact hb

/-- C9: on a transport whose answers depend only on the address and register
of the transaction (a steady one, started in a state of its invariant), two
cycles in a row both terminate, and the second makes the same `Serial` calls,
hence prints the same text, makes the same `Wire` calls and the same register
reads as the first. -/
theorem scan_twice (t : Transport σ) (Inv : σ → Prop) (hst : Steady t Inv)
    (probeIds : Bool) (w : World σ) (hw : Inv w.bus) :
    ∃ w1 w2 out calls reads,
      scanOnce t probeIds w = some w1 ∧ scanOnce t probeIds w1 = some w2 ∧
      w1.serial = w.serial ++ out ∧ w2.serial = w1.serial ++ out ∧
      w1.calls = w.calls ++ calls ∧ w2.calls = w1.calls ++ calls ∧
      w1.regReads = w.regReads ++ reads ∧ w2.regReads = w1.regReads ++ reads ∧
      (scanOnce t probeIds (World.init w1.bus)).map (fun x => Serial.render x.serial)
        = (scanOnce t probeIds (World.init w.bus)).map (fun x => Serial.render x.serial) := by
  obtain ⟨-, -, -, hk⟩ := steady_scan t Inv hst probeIds w.bus w.bus hw hw
  obtain ⟨e1, e2, e3, -⟩ := steady_scan t Inv hst probeIds (scanBus t probeIds w.bus) w.bus hk hw
  refine ⟨_, _, scanSerial t probeIds w.bus, scanCalls t probeIds w.bus,
    scanReads t probeIds w.bus, scanOnce_eq t probeIds w, scanOnce_eq t probeIds _,
    rfl, ?_, rfl, ?_, rfl, ?_, ?_⟩
  · simp only [e1]
  · simp only [e2]
  · simp only [e3]
  · rw [scanOnce_eq, scanOnce_eq]
    simp only [World.init, Option.map_some', e1]

/-- The simulated transport is steady on all its states. -/
theorem simTransport_steady (r : Responses) : Steady (simTransport r) (fun _ => True) where
  probe_keeps := fun _ _ _ => trivial
  read_keeps := fun _ _ _ _ => trivial
  probe_same := fun _ _ _ _ _ => rfl
  select_same := fun _ _ _ _ _ _ => rfl
  count_same := fun _ _ _ _ _ _ _ => rfl
  byte_same := fun _ _ _ _ _ _ _ _ => rfl

set_option maxRecDepth 100000 in
/-- C9, scenario: two cycles in a row on the bus `busMixed` print the same
text and make the same 270 `Wire` calls. -/
theorem scan_twice_mixed :
    ∃ w1 w2, scanOnce (simTransport busMixed) true (World.init SimState.idle) = some w1 ∧
      scanOnce (simTransport busMixed) true w1 = some w2 ∧
      w2.serial = w1.serial ++ w1.serial ∧ w2.calls = w1.calls ++ w1.calls ∧
      Serial.render w1.serial
        = "I2C addresses found (2): 0x23, 0x76\r\n" ++
          "Device 0x23 ID probe:\r\n" ++
          "  reg 0xD0 = 0xFF\r\n  reg 0x00 = 0xFF\r\n  reg 0x0F = 0xFF\r\n" ++
          "Device 0x76 ID probe:\r\n" ++
          "  reg 0xD0 = 0xFF\r\n  reg 0x00 = 0x60\r\n  reg 0x0F = 0xA5\r\n\r\n" := by
  obtain ⟨w1, w2, out, calls, reads, h1, h2, s1, s2, c1, c2, -, -, -⟩ :=
    scan_twice (simTransport busMixed) (fun _ => True) (simTransport_steady busMixed) true
      (World.init SimState.idle) trivial
  have hs1 : w1.serial = out := by simpa [World.init] using s1
  have hc1 : w1.calls = calls := by simpa [World.init] using c1
  refine ⟨w1, w2, h1, h2, ?_, ?_, ?_⟩
  · rw [s2, hs1]
  · rw [c2, hc1]
  · have hr : (scanOnce (simTransport busMixed) true (World.init SimState.idle)).map
        (fun w => Serial.render w.serial) = some (Serial.render w1.serial) := by
      rw [h1]
      rfl
    have hd : (scanOnce (simTransport busMixed) true (World.init SimState.idle)).map
        (fun w => Serial.render w.serial)
        = some ("I2C addresses found (2): 0x23, 0x76\r\n" ++
          "Device 0x23 ID probe:\r\n" ++
          "  reg 0xD0 = 0xFF\r\n  reg 0x00 = 0xFF\r\n  reg 0x0F = 0xFF\r\n" ++
          "Device 0x76 ID probe:\r\n" ++
          "  reg 0xD0 = 0xFF\r\n  reg 0x00 = 0x60\r\n  reg 0x0F = 0xA5\r\n\r\n") := by
      decide
    rw [hr] at hd
    exact Option.some.inj hd

set_option maxRecDepth 100000 in
/-- C10: the value 0xFF does not tell a failed read from a read that
delivers 0xFF.  For the address 0x23 and the register 0xD0, on the bus
`busFF` the read succeeds in every state and delivers 0xFF, on the bus
`busOne` it fails in every state; `readReg8` returns 0xFF on both, and the
cycle, which makes that read on both, prints the same on both. -/
theorem sentinel_collision :
    ∃ (addr reg : Nat) (good bad : Responses),
      (∀ s, ¬ readFails (simTransport good) s addr reg ∧
        deliveredByte (simTransport good) s addr reg = 0xFF) ∧
      (∀ s, readFails (simTransport bad) s addr reg) ∧
      (∀ w w', (readReg8 (simTransport good) addr reg w).2 = 0xFF ∧
        (readReg8 (simTransport bad) addr reg w').2 = 0xFF) ∧
      ∃ wg wb, scanOnce (simTransport good) true (World.init SimState.idle) = some wg ∧
        scanOnce (simTransport bad) true (World.init SimState.idle) = some wb ∧
        (addr, reg) ∈ wg.regReads ∧ (addr, reg) ∈ wb.regReads ∧
        wg.serial = wb.serial ∧ Serial.render wg.serial = Serial.render wb.serial := by
  refine ⟨0x23, 0xD0, busFF, busOne, ?_, ?_, ?_, ?_⟩
  · intro s
    simp [readFails, deliveredByte, selectTx, requestTx, fetchTx, simTransport, busFF]
  · intro s
    simp [readFails, selectTx, simTransport, busOne, nack]
  · intro w w'
    rw [readReg8_eq, readReg8_eq]
    simp [readValue, readFails, deliveredByte, selectTx, requestTx, fetchTx, simTransport,
      busFF, busOne, nack]
  · have hg := scanOnce_eq (simTransport busFF) true (World.init SimState.idle)
    have hb := scanOnce_eq (simTransport busOne) true (World.init SimState.idle)
    have hreads : scanReads (simTransport busFF) true SimState.idle
          = [(0x23, 0xD0), (0x23, 0x00), (0x23, 0x0F)] ∧
        scanReads (simTransport busOne) true SimState.idle
          = [(0x23, 0xD0), (0x23, 0x00), (0x23, 0x0F)] := by
      decide
    have hser : scanSerial (simTransport busFF) true SimState.idle
        = scanSerial (simTransport busOne) true SimState.idle := by
      decide
    refine ⟨_, _, hg, hb, ?_, ?_, ?_, ?_⟩
    · simp [World.init, hreads.1]
    · simp [World.init, hreads.2]
    · simp only [World.init, hser]
    · simp only [World.init, hser]

end CycleClaims

end WeatherStation
